import Mathlib

/-!
Shallow embedding of the `EmailService` reliability core (emailService.js and
its variant source file): idempotency cache, fixed-window rate limiter,
retry loop with exponential backoff, and circular provider rotation, all
orchestrated by `sendEmail`.

Provider outcomes in the source are random (`Math.random`); here they are
supplied by an oracle `Oracle : Nat → Nat → Bool` giving, for each provider
index and 1-based attempt number within a call, whether `provider.send`
succeeds.  The `setInterval` rate-window reset is modelled as the explicit
state transition `resetWindow`.  DOM side effects (`updateStatus`, `log`)
are modelled as an emitted event list.
-/

/-- A logical email message: the (recipient, subject, body) triple passed to
`sendEmail`. -/
structure Message where
  email : String
  subject : String
  body : String
deriving DecidableEq

instance : Inhabited Message := ⟨⟨"", "", ""⟩⟩

/-- The `generateCacheKey` method: plain concatenation of the three fields
with a colon separator. -/
def generateCacheKey (email subject body : String) : String :=
  email ++ ":" ++ subject ++ ":" ++ body

/-- Cache key of a message, as computed at the top of `sendEmail`. -/
def cacheKeyOf (m : Message) : String :=
  generateCacheKey m.email m.subject m.body

/-- The mutable fields of an `EmailService` instance.  Providers are
represented by their names; the JS `Set` cache is a list of keys (a key is
only ever added after a failed membership test, so list membership coincides
with set membership). -/
structure EmailService where
  providers : List String
  currentProviderIndex : Nat
  maxRetries : Nat
  retryDelay : Nat
  rateLimit : Nat
  emailCache : List String
  sentEmails : Nat
deriving DecidableEq

/-- The constructor body of `EmailService`: it stores the given provider
list and initialises the counters.  The result is wrapped in `Except` to
make the possibility of a constructor-time fatal error expressible; the
source constructor body consists only of field assignments and the
`startRateLimitWindow` timer registration, so it always returns `ok`. -/
def EmailService.construct (providers : List String) : Except String EmailService :=
  Except.ok
    { providers := providers
      currentProviderIndex := 0
      maxRetries := 3
      retryDelay := 1000
      rateLimit := 2
      emailCache := []
      sentEmails := 0 }

/-- Follows the spec's words (section 7, EmptyRoster): "fatal at construction
time if the provider list is empty; must be rejected eagerly".  This is the
spec-side constructor, to be compared with `EmailService.construct` from the
source. -/
def EmailService.constructPerSpec (providers : List String) : Except String EmailService :=
  if providers.isEmpty then
    Except.error "EmptyRoster"
  else
    Except.ok
      { providers := providers
        currentProviderIndex := 0
        maxRetries := 3
        retryDelay := 1000
        rateLimit := 2
        emailCache := []
        sentEmails := 0 }

/-- Outcome oracle: `oracle pidx k` tells whether provider `pidx` succeeds on
its `k`-th (1-based) attempt within one dispatch cycle.  It stands for the
`Math.random` draws of the mock providers. -/
abbrev Oracle := Nat → Nat → Bool

/-- Status/log events emitted by `sendEmail` (the `updateStatus`/`log`
side effects), plus explicit sleep events for the backoff delays. -/
inductive Event where
  | duplicate
  | rateLimited
  | attemptFailed (attempt : Nat)
  | slept (ms : Nat)
  | success (provider : String)
  | switchedProvider (provider : String)
deriving DecidableEq

/-- Whether an event is the final success status naming a provider. -/
def Event.isSuccess : Event → Bool
  | .success _ => true
  | _ => false

/-- Result of one cycle of the retry `for` loop: the attempt number on which
the provider succeeded (or `none` on exhaustion), the emitted events, the
list of backoff delays slept, and the provider invocations performed, each
as a (provider index, attempt number) pair. -/
structure AttemptResult where
  succeededAt : Option Nat
  events : List Event
  delays : List Nat
  invocations : List (Nat × Nat)
deriving DecidableEq

/-- The retry `for` loop of `sendEmail`: up to `remaining` further attempts
against provider `pidx`, the next one numbered `attempt`.  On each failure it
emits an attempt-failed event and sleeps `retryDelay * 2 ^ (attempt - 1)`
milliseconds (also after the last failed attempt, as in the source). -/
def runAttempts (oracle : Oracle) (pidx retryDelay attempt remaining : Nat) : AttemptResult :=
  match remaining with
  | 0 => ⟨none, [], [], []⟩
  | r + 1 =>
    if oracle pidx attempt then
      ⟨some attempt, [], [], [(pidx, attempt)]⟩
    else
      let d := retryDelay * 2 ^ (attempt - 1)
      let rest := runAttempts oracle pidx retryDelay (attempt + 1) r
      ⟨rest.succeededAt, Event.attemptFailed attempt :: Event.slept d :: rest.events,
        d :: rest.delays, (pidx, attempt) :: rest.invocations⟩

/-- Result of one `sendEmail` call: the post-state, the emitted events, and
every provider invocation performed, as (provider index, attempt) pairs. -/
structure SendResult where
  state : EmailService
  events : List Event
  invocations : List (Nat × Nat)
deriving DecidableEq

/-- Name of the currently active provider
(`this.providers[this.currentProviderIndex]`). -/
def providerName (s : EmailService) : String :=
  s.providers.getD s.currentProviderIndex ""

/-- The `switchProvider` method: circular increment of the active index. -/
def switchProvider (s : EmailService) : EmailService :=
  { s with currentProviderIndex := (s.currentProviderIndex + 1) % s.providers.length }

/-- The `setInterval` callback of `startRateLimitWindow`: at each fixed
window boundary the sent-email counter is reset to 0. -/
def resetWindow (s : EmailService) : EmailService :=
  { s with sentEmails := 0 }

/-- The body of `sendEmail`, with the trailing self-call abstracted as
`recurse`: duplicate check, unconditional cache record, rate-limit check and
consume, retry cycle, and on exhaustion provider switch followed by the
recursive retry. -/
def sendEmailStep (oracle : Oracle) (recurse : EmailService → Message → SendResult)
    (s : EmailService) (m : Message) : SendResult :=
  let cacheKey := cacheKeyOf m
  if cacheKey ∈ s.emailCache then
    ⟨s, [Event.duplicate], []⟩
  else
    let s1 := { s with emailCache := cacheKey :: s.emailCache }
    if s1.rateLimit ≤ s1.sentEmails then
      ⟨s1, [Event.rateLimited], []⟩
    else
      let s2 := { s1 with sentEmails := s1.sentEmails + 1 }
      let r := runAttempts oracle s2.currentProviderIndex s2.retryDelay 1 s2.maxRetries
      match r.succeededAt with
      | some _ => ⟨s2, r.events ++ [Event.success (providerName s2)], r.invocations⟩
      | none =>
        let s3 := switchProvider s2
        let next := recurse s3 m
        ⟨next.state, r.events ++ Event.switchedProvider (providerName s3) :: next.events,
          r.invocations ++ next.invocations⟩

/-- Fuelled unfolding of the recursive `sendEmail`. -/
def sendEmailFuel (oracle : Oracle) : Nat → EmailService → Message → SendResult
  | 0, s, _ => ⟨s, [], []⟩
  | fuel + 1, s, m => sendEmailStep oracle (sendEmailFuel oracle fuel) s m

/-- The `sendEmail` method.  Fuel 2 is exact: the recursive call after a
provider switch always finds the cache key already recorded and stops, so
`sendEmailFuel` is fuel-independent from 2 upwards
(`sendEmailFuel_stable` below). -/
def sendEmail (oracle : Oracle) (s : EmailService) (m : Message) : SendResult :=
  sendEmailFuel oracle 2 s m

/-- Sequential `sendEmail` calls on one instance: threads the state and
collects each call's events and invocations. -/
def runCalls (calls : List (Oracle × Message)) (s : EmailService) :
    EmailService × List (List Event × List (Nat × Nat)) :=
  match calls with
  | [] => (s, [])
  | c :: rest =>
    let r := sendEmail c.1 s c.2
    let next := runCalls rest r.state
    (next.1, (r.events, r.invocations) :: next.2)

/-- Total number of provider invocations performed for message `m` across a
sequence of `sendEmail` calls starting from state `s`. -/
def invocationsFor (m : Message) (calls : List (Oracle × Message)) (s : EmailService) : Nat :=
  match calls with
  | [] => 0
  | c :: rest =>
    let r := sendEmail c.1 s c.2
    (if c.2 = m then r.invocations.length else 0) + invocationsFor m rest r.state

/-- Fresh service instance of the two-provider scenario roster, as produced
by `EmailService.construct`. -/
def mkService : EmailService :=
  { providers := ["Provider1", "Provider2"]
    currentProviderIndex := 0
    maxRetries := 3
    retryDelay := 1000
    rateLimit := 2
    emailCache := []
    sentEmails := 0 }

/-- The spec's scenario message. -/
def scnMsg : Message := ⟨"a@x.com", "s", "b"⟩

/-- Scenario oracle: provider 0 always fails, provider 1 always succeeds. -/
def scnOracle : Oracle := fun pidx _ => pidx == 1

/-- Always-succeeding provider oracle, for concrete instances. -/
def oTrue : Oracle := fun _ _ => true

def msgA : Message := ⟨"a", "a", "a"⟩

def msgB : Message := ⟨"b", "b", "b"⟩

def msgC : Message := ⟨"c", "c", "c"⟩

def msgD : Message := ⟨"d", "d", "d"⟩

/-- Two distinct fresh messages, filling the `rateLimit = 2` window. -/
def wCalls : List (Oracle × Message) := [(oTrue, msgA), (oTrue, msgB)]

/-- Messages with pairwise distinct cache keys, none already cached. -/
abbrev freshKeys (msgs : List Message) (cache : List String) : Prop :=
  (msgs.map cacheKeyOf).Nodup ∧ ∀ k ∈ msgs.map cacheKeyOf, k ∉ cache

lemma sendEmailStep_cached (o : Oracle) (recurse : EmailService → Message → SendResult)
    (s : EmailService) (m : Message) (h : cacheKeyOf m ∈ s.emailCache) :
    sendEmailStep o recurse s m = ⟨s, [Event.duplicate], []⟩ := by
  simp [sendEmailStep, h]

lemma sendEmailFuel_cached (o : Oracle) (fuel : Nat) (s : EmailService) (m : Message)
    (h : cacheKeyOf m ∈ s.emailCache) :
    sendEmailFuel o (fuel + 1) s m = ⟨s, [Event.duplicate], []⟩ := by
  rw [sendEmailFuel, sendEmailStep_cached o _ s m h]

lemma sendEmail_cached (o : Oracle) (s : EmailService) (m : Message)
    (h : cacheKeyOf m ∈ s.emailCache) :
    sendEmail o s m = ⟨s, [Event.duplicate], []⟩ :=
  sendEmailFuel_cached o 1 s m h

/-- Fuel independence: from fuel 2 upwards `sendEmailFuel` is constant, so
`sendEmail` (fuel 2) is the semantics of the always-terminating recursion:
the one recursive call happens with the cache key already recorded. -/
lemma sendEmailFuel_stable (o : Oracle) (fuel : Nat) (s : EmailService) (m : Message) :
    sendEmailFuel o (fuel + 2) s m = sendEmail o s m := by
  by_cases hc : cacheKeyOf m ∈ s.emailCache
  · rw [sendEmailFuel_cached o (fuel + 1) s m hc, sendEmail_cached o s m hc]
  · show sendEmailStep o (sendEmailFuel o (fuel + 1)) s m =
      sendEmailStep o (sendEmailFuel o 1) s m
    simp only [sendEmailStep, hc, if_false]
    split
    · rfl
    · split
      · rfl
      · rw [sendEmailFuel_cached o fuel _ m (List.mem_cons_self _ _),
          sendEmailFuel_cached o 0 _ m (List.mem_cons_self _ _)]

lemma sendEmail_rate_limited (o : Oracle) (s : EmailService) (m : Message)
    (h1 : cacheKeyOf m ∉ s.emailCache) (h2 : s.rateLimit ≤ s.sentEmails) :
    sendEmail o s m =
      ⟨{ s with emailCache := cacheKeyOf m :: s.emailCache }, [Event.rateLimited], []⟩ := by
  have h2' : ¬ ({ s with emailCache := cacheKeyOf m :: s.emailCache } : EmailService).rateLimit >
      ({ s with emailCache := cacheKeyOf m :: s.emailCache } : EmailService).sentEmails :=
    not_lt.mpr h2
  simp [sendEmail, sendEmailFuel, sendEmailStep, h1, h2]

lemma sendEmail_dispatch (o : Oracle) (s : EmailService) (m : Message)
    (h1 : cacheKeyOf m ∉ s.emailCache) (h2 : s.sentEmails < s.rateLimit) :
    sendEmail o s m =
      (let s2 : EmailService :=
        { s with emailCache := cacheKeyOf m :: s.emailCache, sentEmails := s.sentEmails + 1 }
       let r := runAttempts o s.currentProviderIndex s.retryDelay 1 s.maxRetries
       match r.succeededAt with
       | some _ => ⟨s2, r.events ++ [Event.success (providerName s2)], r.invocations⟩
       | none =>
         ⟨switchProvider s2,
           r.events ++ [Event.switchedProvider (providerName (switchProvider s2)), Event.duplicate],
           r.invocations⟩) := by
  have h2' : ¬ s.rateLimit ≤ s.sentEmails := not_le.mpr h2
  show sendEmailStep o (sendEmailFuel o 1) s m = _
  simp only [sendEmailStep, h1, if_false, h2', ite_false]
  split
  · rfl
  · rw [sendEmailFuel_cached o 0 _ m (List.mem_cons_self _ _)]
    simp

lemma key_recorded (o : Oracle) (s : EmailService) (m : Message) :
    cacheKeyOf m ∈ (sendEmail o s m).state.emailCache := by
  by_cases hc : cacheKeyOf m ∈ s.emailCache
  · rw [sendEmail_cached o s m hc]
    exact hc
  · by_cases hr : s.sentEmails < s.rateLimit
    · rw [sendEmail_dispatch o s m hc hr]
      rcases hsc : (runAttempts o s.currentProviderIndex s.retryDelay 1 s.maxRetries).succeededAt
        with _ | a <;> simp [hsc, switchProvider]
    · rw [sendEmail_rate_limited o s m hc (not_lt.mp hr)]
      simp

lemma cache_mono (o : Oracle) (s : EmailService) (m : Message) (a : String)
    (h : a ∈ s.emailCache) : a ∈ (sendEmail o s m).state.emailCache := by
  by_cases hc : cacheKeyOf m ∈ s.emailCache
  · rw [sendEmail_cached o s m hc]
    exact h
  · by_cases hr : s.sentEmails < s.rateLimit
    · rw [sendEmail_dispatch o s m hc hr]
      rcases hsc : (runAttempts o s.currentProviderIndex s.retryDelay 1 s.maxRetries).succeededAt
        with _ | a <;> simp [hsc, switchProvider, h]
    · rw [sendEmail_rate_limited o s m hc (not_lt.mp hr)]
      simp [h]

lemma config_preserved (o : Oracle) (s : EmailService) (m : Message) :
    (sendEmail o s m).state.providers = s.providers ∧
    (sendEmail o s m).state.maxRetries = s.maxRetries ∧
    (sendEmail o s m).state.retryDelay = s.retryDelay ∧
    (sendEmail o s m).state.rateLimit = s.rateLimit := by
  by_cases hc : cacheKeyOf m ∈ s.emailCache
  · rw [sendEmail_cached o s m hc]
    exact ⟨rfl, rfl, rfl, rfl⟩
  · by_cases hr : s.sentEmails < s.rateLimit
    · rw [sendEmail_dispatch o s m hc hr]
      rcases hsc : (runAttempts o s.currentProviderIndex s.retryDelay 1 s.maxRetries).succeededAt
        with _ | a <;> simp [hsc, switchProvider]
    · rw [sendEmail_rate_limited o s m hc (not_lt.mp hr)]
      exact ⟨rfl, rfl, rfl, rfl⟩

lemma sentEmails_after (o : Oracle) (s : EmailService) (m : Message) :
    (sendEmail o s m).state.sentEmails = s.sentEmails ∨
    (s.sentEmails < s.rateLimit ∧ (sendEmail o s m).state.sentEmails = s.sentEmails + 1) := by
  by_cases hc : cacheKeyOf m ∈ s.emailCache
  · rw [sendEmail_cached o s m hc]
    exact Or.inl rfl
  · by_cases hr : s.sentEmails < s.rateLimit
    · refine Or.inr ⟨hr, ?_⟩
      rw [sendEmail_dispatch o s m hc hr]
      rcases hsc : (runAttempts o s.currentProviderIndex s.retryDelay 1 s.maxRetries).succeededAt
        with _ | a <;> simp [hsc, switchProvider]
    · rw [sendEmail_rate_limited o s m hc (not_lt.mp hr)]
      exact Or.inl rfl

lemma runAttempts_length_le (o : Oracle) (p d : Nat) :
    ∀ r a, (runAttempts o p d a r).invocations.length ≤ r := by
  intro r
  induction r with
  | zero => intro a; simp [runAttempts]
  | succ n ih =>
    intro a
    by_cases h : o p a = true <;> simp [runAttempts, h]
    exact ih (a + 1)

lemma runAttempts_length_pos (o : Oracle) (p d a r : Nat) (h : 1 ≤ r) :
    1 ≤ (runAttempts o p d a r).invocations.length := by
  cases r with
  | zero => omega
  | succ n => by_cases ho : o p a = true <;> simp [runAttempts, ho]

lemma sendEmail_invocations_le (o : Oracle) (s : EmailService) (m : Message) :
    (sendEmail o s m).invocations.length ≤ s.maxRetries := by
  by_cases hc : cacheKeyOf m ∈ s.emailCache
  · rw [sendEmail_cached o s m hc]
    simp
  · by_cases hr : s.sentEmails < s.rateLimit
    · rw [sendEmail_dispatch o s m hc hr]
      rcases hsc : (runAttempts o s.currentProviderIndex s.retryDelay 1 s.maxRetries).succeededAt
        with _ | a <;>
        simpa [hsc] using runAttempts_length_le o s.currentProviderIndex s.retryDelay s.maxRetries 1
    · rw [sendEmail_rate_limited o s m hc (not_lt.mp hr)]
      simp

lemma sendEmail_dispatch_fields (o : Oracle) (s : EmailService) (m : Message)
    (h1 : cacheKeyOf m ∉ s.emailCache) (h2 : s.sentEmails < s.rateLimit)
    (h3 : 1 ≤ s.maxRetries) :
    (sendEmail o s m).state.emailCache = cacheKeyOf m :: s.emailCache ∧
    (sendEmail o s m).state.sentEmails = s.sentEmails + 1 ∧
    1 ≤ (sendEmail o s m).invocations.length := by
  rw [sendEmail_dispatch o s m h1 h2]
  rcases hsc : (runAttempts o s.currentProviderIndex s.retryDelay 1 s.maxRetries).succeededAt
    with _ | a <;>
    simp [hsc, switchProvider] <;>
    simpa [hsc] using runAttempts_length_pos o s.currentProviderIndex s.retryDelay 1 s.maxRetries h3

lemma runAttempts_delays_closed (o : Oracle) (p d : Nat) :
    ∀ r t, (runAttempts o p d (t + 1) r).delays =
      (List.range (runAttempts o p d (t + 1) r).delays.length).map (fun i => d * 2 ^ (t + i)) := by
  intro r
  induction r with
  | zero => intro t; simp [runAttempts]
  | succ n ih =>
    intro t
    by_cases h : o p (t + 1) = true
    · simp [runAttempts, h]
    · simp only [runAttempts, h, Bool.false_eq_true, if_false, Nat.add_sub_cancel]
      rw [ih (t + 1)]
      simp only [List.length_cons, List.length_map, List.length_range]
      rw [List.range_succ_eq_map, List.map_cons, List.map_map]
      refine congrArg₂ List.cons (by simp) (List.map_congr_left ?_)
      intro i _
      simp only [Function.comp_apply, Nat.succ_eq_add_one]
      congr 2
      omega

lemma runCalls_dispatch_all (calls : List (Oracle × Message)) :
    ∀ s : EmailService, 1 ≤ s.maxRetries →
      freshKeys (calls.map Prod.snd) s.emailCache →
      s.sentEmails + calls.length ≤ s.rateLimit →
      (∀ r ∈ (runCalls calls s).2, 1 ≤ r.2.length) ∧
      (runCalls calls s).1.sentEmails = s.sentEmails + calls.length ∧
      (runCalls calls s).1.rateLimit = s.rateLimit ∧
      (runCalls calls s).1.maxRetries = s.maxRetries ∧
      (runCalls calls s).1.emailCache =
        ((calls.map Prod.snd).map cacheKeyOf).reverse ++ s.emailCache := by
  induction calls with
  | nil =>
    intro s h1 hf hc
    simp [runCalls]
  | cons c rest ih =>
    intro s h1 hf hc
    have hk1 : cacheKeyOf c.2 ∉ s.emailCache := hf.2 _ (by simp)
    have hlen : (c :: rest).length = rest.length + 1 := rfl
    have hk2 : s.sentEmails < s.rateLimit := by
      rw [hlen] at hc
      omega
    obtain ⟨hcach, hsent, hinv⟩ := sendEmail_dispatch_fields c.1 s c.2 hk1 hk2 h1
    obtain ⟨-, hmax, -, hrate⟩ := config_preserved c.1 s c.2
    have hnd : cacheKeyOf c.2 ∉ (rest.map Prod.snd).map cacheKeyOf ∧
        ((rest.map Prod.snd).map cacheKeyOf).Nodup := List.nodup_cons.mp hf.1
    have hf' : freshKeys (rest.map Prod.snd) (sendEmail c.1 s c.2).state.emailCache := by
      constructor
      · exact hnd.2
      · intro k hk
        rw [hcach]
        have hkc : k ≠ cacheKeyOf c.2 := by
          intro he
          rw [he] at hk
          exact hnd.1 hk
        have hknot : k ∉ s.emailCache := hf.2 k (List.mem_cons_of_mem _ hk)
        simp [hkc, hknot]
    have hc' : (sendEmail c.1 s c.2).state.sentEmails + rest.length ≤
        (sendEmail c.1 s c.2).state.rateLimit := by
      rw [hsent, hrate]
      rw [hlen] at hc
      omega
    obtain ⟨ihall, ihsent, ihrate, ihmax, ihcache⟩ :=
      ih (sendEmail c.1 s c.2).state (by rw [hmax]; exact h1) hf' hc'
    refine ⟨?_, ?_, ?_, ?_, ?_⟩
    · intro r hr
      simp only [runCalls, List.mem_cons] at hr
      rcases hr with hr | hr
      · rw [hr]
        exact hinv
      · exact ihall r hr
    · simp only [runCalls]
      rw [ihsent, hsent, hlen]
      omega
    · simp only [runCalls]
      rw [ihrate, hrate]
    · simp only [runCalls]
      rw [ihmax, hmax]
    · simp only [runCalls]
      rw [ihcache, hcach]
      simp

lemma invocationsFor_cached (m : Message) :
    ∀ (calls : List (Oracle × Message)) (s : EmailService),
      cacheKeyOf m ∈ s.emailCache → invocationsFor m calls s = 0 := by
  intro calls
  induction calls with
  | nil =>
    intro s h
    simp [invocationsFor]
  | cons c rest ih =>
    intro s h
    simp only [invocationsFor]
    rw [ih _ (cache_mono c.1 s c.2 _ h)]
    by_cases hm : c.2 = m
    · rw [hm, sendEmail_cached c.1 s m h]
      simp
    · simp [hm]

/-- C1: the claim says that after the active provider fails all `maxRetries`
attempts, the active index advances by one (circularly) and a new full
attempt cycle begins on the new provider.  In the code only the first half
holds: at the spec scenario (provider 0 always fails, provider 1 always
succeeds), the index does advance to `(0 + 1) % 2 = 1`, but every provider
invocation hits provider 0, the would-succeed provider 1 is never invoked,
and the recursive call ends at the duplicate check with a duplicate event —
no new attempt cycle begins. -/
theorem rotation_aborted_by_duplicate_check :
    (sendEmail scnOracle mkService scnMsg).state.currentProviderIndex =
      (mkService.currentProviderIndex + 1) % mkService.providers.length ∧
    (sendEmail scnOracle mkService scnMsg).invocations = [(0, 1), (0, 2), (0, 3)] ∧
    ((sendEmail scnOracle mkService scnMsg).invocations.filter (fun p => p.1 == 1)).length = 0 ∧
    (sendEmail scnOracle mkService scnMsg).events.getLast? = some Event.duplicate ∧
    scnOracle 1 1 = true := by
  decide

/-- C2: the claim says that if some provider in the roster eventually
succeeds when tried, `sendEmail` ends with a success event naming it; the
spec's own scenario (P1 always fails, P2 always succeeds) is supposed to end
with success naming P2.  In the code the call ends with a duplicate event,
emits no success event at all, and never invokes provider 1 even though its
very first attempt would have succeeded. -/
theorem eventual_success_scenario_ends_duplicate :
    (sendEmail scnOracle mkService scnMsg).events.getLast? = some Event.duplicate ∧
    (sendEmail scnOracle mkService scnMsg).events.all (fun e => !e.isSuccess) = true ∧
    (∀ p ∈ (sendEmail scnOracle mkService scnMsg).invocations, p.1 = 0) ∧
    scnOracle 1 1 = true := by
  decide

/-- C3: a `sendEmail` call whose cache key is already recorded emits only a
duplicate event, performs zero provider invocations, and leaves the whole
state (cache, `sentEmails`, active index) unchanged; consequently the second
of two back-to-back calls with the same message is always such a no-op. -/
theorem duplicate_call_is_noop (o1 o2 : Oracle) (s : EmailService) (m : Message) :
    (cacheKeyOf m ∈ s.emailCache → sendEmail o1 s m = ⟨s, [Event.duplicate], []⟩) ∧
    sendEmail o2 (sendEmail o1 s m).state m =
      ⟨(sendEmail o1 s m).state, [Event.duplicate], []⟩ :=
  ⟨fun h => sendEmail_cached o1 s m h,
    sendEmail_cached o2 _ m (key_recorded o1 s m)⟩

theorem duplicate_call_is_noop_witness :
    cacheKeyOf scnMsg ∈
      ({ mkService with emailCache := ["a@x.com:s:b"] } : EmailService).emailCache ∧
    sendEmail scnOracle { mkService with emailCache := ["a@x.com:s:b"] } scnMsg =
      ⟨{ mkService with emailCache := ["a@x.com:s:b"] }, [Event.duplicate], []⟩ :=
  ⟨by decide,
    (duplicate_call_is_noop scnOracle scnOracle
      { mkService with emailCache := ["a@x.com:s:b"] } scnMsg).1 (by decide)⟩

/-- C4: the cache key is recorded before the rate-limit check and before any
provider attempt: after any `sendEmail` call the key is in the cache; in
particular a rate-limited call still records it (emitting only a
rate-limited event with zero invocations), and any later call with the same
fields takes the duplicate branch. -/
theorem fingerprint_recorded_before_rate_check (o1 o2 : Oracle) (s : EmailService)
    (m : Message) :
    cacheKeyOf m ∈ (sendEmail o1 s m).state.emailCache ∧
    (cacheKeyOf m ∉ s.emailCache → s.rateLimit ≤ s.sentEmails →
      sendEmail o1 s m =
        ⟨{ s with emailCache := cacheKeyOf m :: s.emailCache }, [Event.rateLimited], []⟩) ∧
    sendEmail o2 (sendEmail o1 s m).state m =
      ⟨(sendEmail o1 s m).state, [Event.duplicate], []⟩ :=
  ⟨key_recorded o1 s m,
    fun h1 h2 => sendEmail_rate_limited o1 s m h1 h2,
    sendEmail_cached o2 _ m (key_recorded o1 s m)⟩

theorem fingerprint_recorded_before_rate_check_witness :
    cacheKeyOf scnMsg ∉ ({ mkService with sentEmails := 2 } : EmailService).emailCache ∧
    ({ mkService with sentEmails := 2 } : EmailService).rateLimit ≤
      ({ mkService with sentEmails := 2 } : EmailService).sentEmails ∧
    sendEmail scnOracle { mkService with sentEmails := 2 } scnMsg =
      ⟨{ ({ mkService with sentEmails := 2 } : EmailService) with
          emailCache := cacheKeyOf scnMsg :: ({ mkService with sentEmails := 2 } :
            EmailService).emailCache },
        [Event.rateLimited], []⟩ :=
  ⟨by decide, by decide,
    (fingerprint_recorded_before_rate_check scnOracle scnOracle
      { mkService with sentEmails := 2 } scnMsg).2.1 (by decide) (by decide)⟩

/-- C8 counterexample: constructing with an empty provider list is not
rejected — the source constructor just stores the fields and returns; only
the spec-side constructor rejects with an EmptyRoster error. -/
theorem empty_roster_accepted_counterexample :
    EmailService.construct [] =
      Except.ok
        { providers := [], currentProviderIndex := 0, maxRetries := 3, retryDelay := 1000,
          rateLimit := 2, emailCache := [], sentEmails := 0 } ∧
    EmailService.constructPerSpec [] = Except.error "EmptyRoster" :=
  ⟨rfl, rfl⟩

/-- C8 amended: the constructor performs no emptiness check; it accepts any
provider list, including the empty one, and always returns a constructed
service storing the given list. -/
theorem constructor_never_rejects (providers : List String) :
    EmailService.construct providers =
      Except.ok
        { providers := providers, currentProviderIndex := 0, maxRetries := 3,
          retryDelay := 1000, rateLimit := 2, emailCache := [], sentEmails := 0 } :=
  rfl

/-- C9: for a fixed message and one service instance, providers are invoked
at most `maxRetries` times (3 as constructed) in total across any sequence
of `sendEmail` calls: the fingerprint enters the cache before the first
attempt cycle, so both the post-rotation recursive call and every later call
for that message stop at the duplicate check with zero invocations. -/
theorem provider_invocations_bounded (m : Message) (calls : List (Oracle × Message))
    (s : EmailService) : invocationsFor m calls s ≤ s.maxRetries := by
  induction calls generalizing s with
  | nil => simp [invocationsFor]
  | cons c rest ih =>
    simp only [invocationsFor]
    by_cases hm : c.2 = m
    · rw [invocationsFor_cached m rest _ (by rw [← hm]; exact key_recorded c.1 s c.2)]
      simp only [hm, if_pos, Nat.add_zero]
      exact sendEmail_invocations_le c.1 s m
    · simp only [hm, if_false, Nat.zero_add]
      calc invocationsFor m rest (sendEmail c.1 s c.2).state
          ≤ (sendEmail c.1 s c.2).state.maxRetries := ih _
        _ = s.maxRetries := (config_preserved c.1 s c.2).2.1

/-- C10: the cache key is a deterministic function of the three message
fields, but plain colon-separated concatenation collides: the distinct
messages ("a:b", "c", "d") and ("a", "b:c", "d") share the key
"a:b:c:d", and after the first of two key-colliding messages is sent, the
second is suppressed as a duplicate with zero provider invocations. -/
theorem cache_key_deterministic_and_colliding (m1 m2 : Message) (s : EmailService)
    (o1 o2 : Oracle) :
    (m1.email = m2.email → m1.subject = m2.subject → m1.body = m2.body →
      cacheKeyOf m1 = cacheKeyOf m2) ∧
    (Message.mk "a:b" "c" "d" ≠ Message.mk "a" "b:c" "d" ∧
      cacheKeyOf (Message.mk "a:b" "c" "d") = cacheKeyOf (Message.mk "a" "b:c" "d")) ∧
    (cacheKeyOf m1 = cacheKeyOf m2 →
      sendEmail o2 (sendEmail o1 s m1).state m2 =
        ⟨(sendEmail o1 s m1).state, [Event.duplicate], []⟩) := by
  refine ⟨fun h1 h2 h3 => ?_, ⟨by decide, by decide⟩, fun hk => ?_⟩
  · simp [cacheKeyOf, generateCacheKey, h1, h2, h3]
  · exact sendEmail_cached o2 _ m2 (hk ▸ key_recorded o1 s m1)

theorem cache_key_deterministic_and_colliding_witness :
    cacheKeyOf (Message.mk "a:b" "c" "d") = cacheKeyOf (Message.mk "a" "b:c" "d") ∧
    sendEmail scnOracle (sendEmail scnOracle mkService (Message.mk "a:b" "c" "d")).state
        (Message.mk "a" "b:c" "d") =
      ⟨(sendEmail scnOracle mkService (Message.mk "a:b" "c" "d")).state,
        [Event.duplicate], []⟩ :=
  ⟨by decide,
    (cache_key_deterministic_and_colliding (Message.mk "a:b" "c" "d")
      (Message.mk "a" "b:c" "d") mkService scnOracle scnOracle).2.2 (by decide)⟩

/-- C6: starting from any state satisfying the invariant, `sendEmail` keeps
`sentEmails ≤ rateLimit`: it either leaves the counter unchanged or
increments it by one, incrementing only when the counter is strictly below
the limit; `sendEmail` never resets it, only the window-boundary transition
`resetWindow` sets it to 0. -/
theorem sent_emails_bounded_by_rate_limit (o : Oracle) (s : EmailService) (m : Message)
    (h : s.sentEmails ≤ s.rateLimit) :
    (sendEmail o s m).state.sentEmails ≤ (sendEmail o s m).state.rateLimit ∧
    ((sendEmail o s m).state.sentEmails = s.sentEmails ∨
      (s.sentEmails < s.rateLimit ∧
        (sendEmail o s m).state.sentEmails = s.sentEmails + 1)) ∧
    (resetWindow s).sentEmails = 0 := by
  obtain ⟨-, -, -, hrate⟩ := config_preserved o s m
  rcases sentEmails_after o s m with hcase | ⟨hlt, hcase⟩
  · exact ⟨by rw [hcase, hrate]; exact h, Or.inl hcase, rfl⟩
  · exact ⟨by rw [hcase, hrate]; omega, Or.inr ⟨hlt, hcase⟩, rfl⟩

theorem sent_emails_bounded_by_rate_limit_witness :
    mkService.sentEmails ≤ mkService.rateLimit ∧
    ((sendEmail scnOracle mkService scnMsg).state.sentEmails ≤
        (sendEmail scnOracle mkService scnMsg).state.rateLimit ∧
      ((sendEmail scnOracle mkService scnMsg).state.sentEmails = mkService.sentEmails ∨
        (mkService.sentEmails < mkService.rateLimit ∧
          (sendEmail scnOracle mkService scnMsg).state.sentEmails =
            mkService.sentEmails + 1)) ∧
      (resetWindow mkService).sentEmails = 0) :=
  ⟨by decide, sent_emails_bounded_by_rate_limit scnOracle mkService scnMsg (by decide)⟩

/-- C7: for the configured retry policy (`retryDelay = 1000`,
`maxRetries = 3`, multiplier 2), the delay slept after the `k`-th failed
attempt (the `i`-th list entry, `k = i + 1`) is exactly `1000 * 2 ^ (k - 1)`,
the slept delays strictly increase, and in the all-fail cycle they are
exactly 1000, 2000, 4000 ms. -/
theorem backoff_delays_exponential (o : Oracle) (p : Nat) :
    (runAttempts o p 1000 1 3).delays =
      (List.range (runAttempts o p 1000 1 3).delays.length).map (fun i => 1000 * 2 ^ i) ∧
    List.Chain' (fun x y => x < y) (runAttempts o p 1000 1 3).delays ∧
    ((∀ k, o p k = false) → (runAttempts o p 1000 1 3).delays = [1000, 2000, 4000]) := by
  have hform := runAttempts_delays_closed o p 1000 3 0
  simp only [Nat.zero_add] at hform
  refine ⟨hform, ?_, ?_⟩
  · rw [hform]
    refine List.Pairwise.chain' ?_
    refine List.Pairwise.map _ ?_ (List.pairwise_lt_range _)
    intro a b hab
    have h2 : (2:ℕ) ^ a < 2 ^ b := Nat.pow_lt_pow_right (by norm_num) hab
    exact (mul_lt_mul_left (by norm_num : (0:ℕ) < 1000)).mpr h2
  · intro hall
    simp only [runAttempts, hall, Bool.false_eq_true, if_false]
    norm_num

theorem backoff_delays_exponential_witness :
    (runAttempts (fun _ _ => false) 0 1000 1 3).delays = [1000, 2000, 4000] :=
  (backoff_delays_exponential (fun _ _ => false) 0).2.2 (fun _ => rfl)

/-- C5: with a zeroed counter and `rateLimit = N ≥ 1`, the first `N` fresh
distinct messages all proceed to provider dispatch (at least one provider
invocation each), the `(N+1)`-th gets only a rate-limited event with zero
invocations, and after the window reset a further fresh message again
proceeds to dispatch. -/
theorem rate_limit_window_behavior (s : EmailService) (calls : List (Oracle × Message))
    (oN oF : Oracle) (mN mF : Message)
    (h1 : 1 ≤ s.maxRetries) (h2 : s.sentEmails = 0) (h3 : 1 ≤ s.rateLimit)
    (h4 : calls.length = s.rateLimit)
    (h5 : freshKeys (calls.map Prod.snd ++ [mN, mF]) s.emailCache) :
    (∀ r ∈ (runCalls calls s).2, 1 ≤ r.2.length) ∧
    sendEmail oN (runCalls calls s).1 mN =
      ⟨{ (runCalls calls s).1 with
          emailCache := cacheKeyOf mN :: (runCalls calls s).1.emailCache },
        [Event.rateLimited], []⟩ ∧
    1 ≤ (sendEmail oF
        (resetWindow (sendEmail oN (runCalls calls s).1 mN).state) mF).invocations.length := by
  have hmap : (calls.map Prod.snd ++ [mN, mF]).map cacheKeyOf =
      (calls.map Prod.snd).map cacheKeyOf ++ [cacheKeyOf mN, cacheKeyOf mF] := by
    simp
  have hnd := h5.1
  rw [hmap] at hnd
  obtain ⟨hK, hTail, hdisj⟩ := List.nodup_append.mp hnd
  have hNK : cacheKeyOf mN ∉ (calls.map Prod.snd).map cacheKeyOf :=
    fun h => hdisj h (by simp)
  have hFK : cacheKeyOf mF ∉ (calls.map Prod.snd).map cacheKeyOf :=
    fun h => hdisj h (by simp)
  have hNF : cacheKeyOf mN ≠ cacheKeyOf mF := by
    have hc := List.nodup_cons.mp hTail
    simpa using hc.1
  have hNs : cacheKeyOf mN ∉ s.emailCache :=
    h5.2 _ (List.mem_map_of_mem _ (List.mem_append_right _ (by simp)))
  have hFs : cacheKeyOf mF ∉ s.emailCache :=
    h5.2 _ (List.mem_map_of_mem _ (List.mem_append_right _ (by simp)))
  have hfc : freshKeys (calls.map Prod.snd) s.emailCache := by
    refine ⟨hK, fun k hk => h5.2 k ?_⟩
    rw [hmap]
    exact List.mem_append_left _ hk
  obtain ⟨hall, hsent, hrate, hmax, hcache⟩ :=
    runCalls_dispatch_all calls s h1 hfc (by rw [h2, h4]; omega)
  have hNnotS1 : cacheKeyOf mN ∉ (runCalls calls s).1.emailCache := by
    rw [hcache]
    intro hmem
    rcases List.mem_append.mp hmem with hmem | hmem
    · exact hNK (List.mem_reverse.mp hmem)
    · exact hNs hmem
  have hS1rate : (runCalls calls s).1.rateLimit ≤ (runCalls calls s).1.sentEmails := by
    rw [hrate, hsent, h2, h4]
    omega
  have hmain := sendEmail_rate_limited oN (runCalls calls s).1 mN hNnotS1 hS1rate
  refine ⟨hall, hmain, ?_⟩
  rw [hmain]
  have hFnot : cacheKeyOf mF ∉
      (resetWindow { (runCalls calls s).1 with
        emailCache := cacheKeyOf mN :: (runCalls calls s).1.emailCache }).emailCache := by
    intro hmem
    rcases List.mem_cons.mp hmem with he | hmem
    · exact hNF he.symm
    · rw [hcache] at hmem
      rcases List.mem_append.mp hmem with hmem | hmem
      · exact hFK (List.mem_reverse.mp hmem)
      · exact hFs hmem
  have hsl : (resetWindow { (runCalls calls s).1 with
        emailCache := cacheKeyOf mN :: (runCalls calls s).1.emailCache }).sentEmails <
      (resetWindow { (runCalls calls s).1 with
        emailCache := cacheKeyOf mN :: (runCalls calls s).1.emailCache }).rateLimit := by
    show 0 < (runCalls calls s).1.rateLimit
    rw [hrate]
    omega
  have hmr : 1 ≤ (resetWindow { (runCalls calls s).1 with
      emailCache := cacheKeyOf mN :: (runCalls calls s).1.emailCache }).maxRetries := by
    show 1 ≤ (runCalls calls s).1.maxRetries
    rw [hmax]
    exact h1
  exact (sendEmail_dispatch_fields oF _ mF hFnot hsl hmr).2.2

theorem rate_limit_window_behavior_witness :
    (1 ≤ mkService.maxRetries ∧ mkService.sentEmails = 0 ∧ 1 ≤ mkService.rateLimit ∧
      wCalls.length = mkService.rateLimit ∧
      freshKeys (wCalls.map Prod.snd ++ [msgC, msgD]) mkService.emailCache) ∧
    ((∀ r ∈ (runCalls wCalls mkService).2, 1 ≤ r.2.length) ∧
      sendEmail oTrue (runCalls wCalls mkService).1 msgC =
        ⟨{ (runCalls wCalls mkService).1 with
            emailCache := cacheKeyOf msgC :: (runCalls wCalls mkService).1.emailCache },
          [Event.rateLimited], []⟩ ∧
      1 ≤ (sendEmail oTrue
          (resetWindow (sendEmail oTrue (runCalls wCalls mkService).1 msgC).state)
          msgD).invocations.length) :=
  ⟨⟨by decide, rfl, by decide, rfl, by decide⟩,
    rate_limit_window_behavior mkService wCalls oTrue oTrue msgC msgD (by decide) rfl
      (by decide) rfl (by decide)⟩

example : EmailService.construct ["Provider1", "Provider2"] = Except.ok mkService := rfl

example :
    sendEmail scnOracle mkService scnMsg =
      ⟨{ mkService with
          currentProviderIndex := 1
          emailCache := ["a@x.com:s:b"]
          sentEmails := 1 },
        [Event.attemptFailed 1, Event.slept 1000, Event.attemptFailed 2, Event.slept 2000,
          Event.attemptFailed 3, Event.slept 4000, Event.switchedProvider "Provider2",
          Event.duplicate],
        [(0, 1), (0, 2), (0, 3)]⟩ := by
  decide
